import Mathlib

/-!
Verification of the medusa-astro-starter utility scripts: the project-name
validation regex, the template renamer (`renameInFile`, `traverseDirectory`,
`firstSetup` in scripts/run.mjs), the bash `version_compare` routine, the
deployment health-check/seed loop, and the command dispatcher, each shallowly
embedded as executable Lean functions.
-/

namespace Starter

/-! ## Character classes of the project-name regex

The regex in `firstSetup` (scripts/run.mjs) is
`^(?:(?:@(?:[a-z0-9-*~][a-z0-9-*._~]*)?\/[a-z0-9-._~])|[a-z0-9-~])[a-z0-9-._~]*$`.
-/

def isLowerAZ (c : Char) : Bool := 'a' ≤ c && c ≤ 'z'

def isDigit09 (c : Char) : Bool := '0' ≤ c && c ≤ '9'

/-- The class `[a-z0-9-~]` (first char of the unscoped branch). -/
def classBare (c : Char) : Bool :=
  isLowerAZ c || isDigit09 c || c = '-' || c = '~'

/-- The class `[a-z0-9-._~]` (tail characters, and the char after `/`). -/
def classTail (c : Char) : Bool :=
  classBare c || c = '.' || c = '_'

/-- The class `[a-z0-9-*~]` (first char of the scope). -/
def classScope1 (c : Char) : Bool :=
  classBare c || c = '*'

/-- The class `[a-z0-9-*._~]` (remaining chars of the scope). -/
def classScope2 (c : Char) : Bool :=
  classScope1 c || c = '.' || c = '_'

/-- Split a character list at the first `/`, returning the part before and
after; `none` when no `/` occurs.  In the scoped branch of the regex the
scope classes and the tail class both exclude `/`, so a match must place the
literal `/` of the pattern at the first `/` of the string. -/
def splitSlash : List Char → Option (List Char × List Char)
  | [] => none
  | '/' :: t => some ([], t)
  | c :: t => (splitSlash t).map (fun p => (c :: p.1, p.2))

/-- The optional scope group `(?:[a-z0-9-*~][a-z0-9-*._~]*)?`. -/
def scopeOk : List Char → Bool
  | [] => true
  | c :: t => classScope1 c && t.all classScope2

/-- Model of `namePattern.test` from `firstSetup` (scripts/run.mjs): whether the whole
string matches the project-name regex. -/
def namePatternTest (s : List Char) : Bool :=
  match s with
  | [] => false
  | '@' :: rest =>
    match splitSlash rest with
    | none => false
    | some (scope, t) => scopeOk scope && !t.isEmpty && t.all classTail
  | c :: rest => classBare c && rest.all classTail

/-! ## Global literal replacement (`renameInFile`)

`renameInFile` (scripts/run.mjs) does
`content.replace(new RegExp(oldName, "g"), ...)`.  The patterns used
(`"changemename"`, `"changemesecret"`) contain no regex metacharacters, so the
replacement is literal, global, leftmost and non-overlapping. -/

/-- Fuel-indexed scan performing global leftmost non-overlapping replacement
of the literal pattern `pat` by `rep`.  The scan advances at least one
character per step, so `fuel = s.length` always suffices. -/
def replaceAllGAux (pat rep : List Char) : Nat → List Char → List Char
  | _, [] => []
  | 0, s => s
  | fuel + 1, c :: rest =>
    if pat ≠ [] ∧ pat.isPrefixOf (c :: rest) then
      rep ++ replaceAllGAux pat rep fuel ((c :: rest).drop pat.length)
    else
      c :: replaceAllGAux pat rep fuel rest

/-- Global leftmost non-overlapping replacement of the literal pattern `pat`
by `rep` in `s`, as performed by `content.replace(new RegExp(pat, "g"), rep)`
for a metacharacter-free `pat`. -/
def replaceAllG (pat rep s : List Char) : List Char :=
  replaceAllGAux pat rep s.length s

/-- Fuel-indexed scan counting leftmost non-overlapping occurrences. -/
def countOccurAux (pat : List Char) : Nat → List Char → Nat
  | _, [] => 0
  | 0, _ => 0
  | fuel + 1, c :: rest =>
    if pat ≠ [] ∧ pat.isPrefixOf (c :: rest) then
      1 + countOccurAux pat fuel ((c :: rest).drop pat.length)
    else
      countOccurAux pat fuel rest

/-- Number of matches the global replacement performs: the count of leftmost
non-overlapping occurrences of `pat` in `s`.  This is also the number of times
a generator rule's generator is invoked on `s`. -/
def countOccur (pat s : List Char) : Nat :=
  countOccurAux pat s.length s

/-- The placeholder token replaced by the project name during setup. -/
def nameToken : List Char := "changemename".data

/-- The placeholder token replaced by a generated secret during setup. -/
def secretToken : List Char := "changemesecret".data

/-! ## Version comparison (`version_compare` in the install script)

```bash
ver1=$(echo "$1" | sed -E 's/^[vV]?//; s/[^0-9.].*$//')
IFS='.' read -ra VER1 <<< "$ver1"   # likewise ver2/VER2
for i in "${!VER1[@]}"; do
  [[ -z ${VER2[i]} ]] && VER2[i]=0
  ((10#${VER1[i]} > 10#${VER2[i]})) && return 1
  ((10#${VER1[i]} < 10#${VER2[i]})) && return 2
done
((${#VER1[@]} < ${#VER2[@]})) && return 2 || return 0
```
Return codes: 0 = equal, 1 = first greater, 2 = first less. -/

/-- Model of `sed -E 's/^[vV]?//; s/[^0-9.].*$//'`: drop one leading `v`/`V`, then
delete everything from the first character that is neither a digit nor a
dot. -/
def stripVersion (s : List Char) : List Char :=
  let s1 := match s with
    | 'v' :: t => t
    | 'V' :: t => t
    | other => other
  s1.takeWhile (fun c => isDigit09 c || c = '.')

/-- Split a character list on `.` (the `IFS='.' read -ra` step). -/
def splitDots (s : List Char) : List (List Char) :=
  match s with
  | [] => [[]]
  | '.' :: t => [] :: splitDots t
  | c :: t =>
    match splitDots t with
    | [] => [[c]]
    | f :: r => (c :: f) :: r

/-- Decimal value of a digit run (the `10#${...}` coercion). -/
def digitsToNat (s : List Char) : Nat :=
  s.foldl (fun acc c => acc * 10 + (c.toNat - '0'.toNat)) 0

/-- Parsed component list of a version string. -/
def versionComponents (s : List Char) : List Nat :=
  (splitDots (stripVersion s)).map digitsToNat

/-- The component loop of `version_compare`: iterate over the FIRST list's
indices, defaulting a missing second component to 0; after the loop, a
strictly shorter first list returns 2 (first less). -/
def vcomp : List Nat → List Nat → Nat
  | [], b => if b.length > 0 then 2 else 0
  | x :: xs, b =>
    if x > b.headD 0 then 1
    else if x < b.headD 0 then 2
    else vcomp xs b.tail

/-- Model of `version_compare "$1" "$2"`: 0 = equal, 1 = first greater,
2 = first less (does not meet requirement). -/
def version_compare (a b : List Char) : Nat :=
  vcomp (versionComponents a) (versionComponents b)

/-! ## Secret generation (`generateSecret` in scripts/run.mjs)

`crypto.randomBytes(32).toString("hex")`: each byte becomes two lowercase
hexadecimal digits. -/

/-- The sixteen lowercase hexadecimal digit characters, in value order. -/
def hexDigits : List Char := "0123456789abcdef".data

/-- The hex digit character for a value `n < 16`. -/
def hexDigit (n : Nat) : Char := hexDigits.getD n '0'

/-- Lowercase hexadecimal encoding of one byte `b < 256`. -/
def byteToHex (b : Nat) : List Char := [hexDigit (b / 16), hexDigit (b % 16)]

/-- Model of `generateSecret`, as a function of the 32 bytes drawn from
`crypto.randomBytes(32)`: their lowercase hexadecimal encoding. -/
def generateSecret (bytes : List Nat) : List Char :=
  bytes.flatMap byteToHex

/-! ## Generator-rule replacement

`renameInFile(path, "changemesecret", "", generateSecret)` calls the
generator once per match (the `replace` callback).  We index the successive
`crypto.randomBytes(32)` draws by a supply `gen : Nat → List Char`: the k-th
match receives `gen k`. -/

/-- Fuel-indexed scan replacing the k-th leftmost non-overlapping match of
`pat` by `gen k`; returns the output and the number of generator calls. -/
def replaceAllGenAux (pat : List Char) (gen : Nat → List Char) :
    Nat → Nat → List Char → List Char × Nat
  | _, k, [] => ([], k)
  | 0, k, s => (s, k)
  | fuel + 1, k, c :: rest =>
    if pat ≠ [] ∧ pat.isPrefixOf (c :: rest) then
      let out := replaceAllGenAux pat gen fuel (k + 1) ((c :: rest).drop pat.length)
      (gen k ++ out.1, out.2)
    else
      let out := replaceAllGenAux pat gen fuel k rest
      (c :: out.1, out.2)

/-- Global replacement with a per-match generator, as
`content.replace(new RegExp(pat, "g"), () => generator())` performs. -/
def replaceAllGen (pat : List Char) (gen : Nat → List Char) (s : List Char) :
    List Char × Nat :=
  replaceAllGenAux pat gen s.length 0 s

/-! ## Error propagation in the renaming pass

In `firstSetup`, both `traverseDirectory` passes run inside a single
`try { ... } catch (err) { console.error("Error:", err); }`.  `renameInFile`
is synchronous: a `readFileSync`/`writeFileSync` failure throws, the
exception propagates out of the recursive traversal, and the single `catch`
reports it once; the remaining files of the pass are never visited.  We
model the pass over the traversal-ordered file list, a file being either
readable (`some content`) or failing on read (`none`). -/

/-- One renaming pass over the traversal-ordered files.  Returns the files
after the pass and whether an error was reported.  A failing file stops the
pass: files after it are untouched. -/
def renamePassRun (pat rep : List Char) :
    List (Option (List Char)) → List (Option (List Char)) × Bool
  | [] => ([], false)
  | none :: rest => (none :: rest, true)
  | some c :: rest =>
    let out := renamePassRun pat rep rest
    (some (replaceAllG pat rep c) :: out.1, out.2)

/-! ## Directory traversal and the `.env` creation pass (`firstSetup`)

`traverseDirectory(dir, rootDir, operation, filesToIgnore, dirsToIgnore)`
prunes any directory whose name or root-relative path is ignored and calls
`operation` on every file whose name is not ignored. -/

/-- A directory tree entry. -/
inductive FsEntry where
  | file (name : String) (content : List Char)
  | dir (name : String) (entries : List FsEntry)

/-- Model of `relative(rootDir, fullPath)` for a child `name` of the directory at
relative path `pre` (`""` for the root itself). -/
def relJoin (pre name : String) : String :=
  if pre = "" then name else pre ++ "/" ++ name

/-- The files visited by `traverseDirectory` (relative path, base name,
content), in traversal order, pruning ignored directories and skipping
ignored file names.  `fuel` only bounds the recursion depth: any
`fuel ≥ sizeOf tree` yields the full traversal, and every property proved
below holds for all fuel. -/
def visitedFiles (filesToIgnore dirsToIgnore : List String) :
    Nat → List FsEntry → String → List (String × String × List Char)
  | 0, _, _ => []
  | _ + 1, [], _ => []
  | fuel + 1, FsEntry.file n c :: rest, pre =>
    (if filesToIgnore.contains n then []
     else [(relJoin pre n, n, c)]) ++
      visitedFiles filesToIgnore dirsToIgnore fuel rest pre
  | fuel + 1, FsEntry.dir n es :: rest, pre =>
    (if dirsToIgnore.contains n || dirsToIgnore.contains (relJoin pre n) then []
     else visitedFiles filesToIgnore dirsToIgnore fuel es (relJoin pre n))
      ++ visitedFiles filesToIgnore dirsToIgnore fuel rest pre

/-- The `filesToIgnore` list of `firstSetup`. -/
def setupFilesToIgnore : List String :=
  ["pnpm-lock.yaml", ".gitignore", "pnpm-workspace.yaml", "yarn.lock",
   "tsconfig.json", "run.mjs", ".env.example"]

/-- The `dirsToIgnore` list of `firstSetup`. -/
def setupDirsToIgnore : List String :=
  ["node_modules", "dist", "build", ".git", ".vscode", ".docker"]

/-- The visited files of the second `firstSetup` traversal whose base name
is ".env.example" — exactly those on which the `.env`-creation branch
runs. -/
def envExampleVisits (fuel : Nat) (tree : List FsEntry) :
    List (String × String × List Char) :=
  (visitedFiles setupFilesToIgnore setupDirsToIgnore fuel tree "").filter
    (fun v => v.2.1 = ".env.example")

/-- The `.env` / `.env.production` files the second traversal creates:
for each visited ".env.example" file, each sibling target absent from
`existing` is created. -/
def envPassCreations (fuel : Nat) (tree : List FsEntry) (existing : List String) :
    List String :=
  (envExampleVisits fuel tree).flatMap (fun v =>
    (if existing.contains (v.1 ++ "/.env") then [] else [v.1 ++ "/.env"]) ++
    (if existing.contains (v.1 ++ "/.env.production") then []
     else [v.1 ++ "/.env.production"]))

/-! ## The backend health-check / seed loop (deployment script)

```bash
i=0; REGION_COUNT=0
while [ "$i" -le $MAX_RETRIES ]; do
  response=$(curl ... -w "%{http_code}" $HEALTH_CHECK_URL)
  if [ $response -eq 200 ]; then
    response=$(curl -X GET $HEALTH_CHECK_URL ...)
    REGION_COUNT=$(echo $response | grep -oP '"count":\s*\K[0-9]+')
    break
  fi
  i=$(( i + 1 )); sleep "$SLEEP_INTERVAL"
done
if [ "$REGION_COUNT" -gt 0 ]; then ... else npx medusa seed; fi
```
-/

/-- Outcome of the health-check loop: probe attempts performed, whether a
200 was observed, and `REGION_COUNT` (`none` models the empty string left
by a failed `grep`; the initial value is the literal `0`). -/
structure PollResult where
  attempts : Nat
  success : Bool
  count : Option Nat
deriving DecidableEq, Repr

/-- Whitespace characters relevant to the body scan. -/
def isSpaceChar (c : Char) : Bool :=
  c = ' ' || c = '\t' || c = '\n' || c = '\r'

/-- Read a maximal nonempty digit run as a number. -/
def readDigits (s : List Char) : Option Nat :=
  let ds := s.takeWhile isDigit09
  if ds.isEmpty then none else some (digitsToNat ds)

/-- Try to match `"count":\s*[0-9]+` at the head of `s`, returning the
digits' value. -/
def matchCountAt (s : List Char) : Option Nat :=
  if ("\"count\":".data).isPrefixOf s then
    readDigits ((s.drop 8).dropWhile isSpaceChar)
  else none

/-- Model of `grep -oP` extracting the count from the response body: the value at the
first position where the pattern matches, `none` when grep finds nothing. -/
def extractCount : List Char → Option Nat
  | [] => none
  | c :: rest =>
    match matchCountAt (c :: rest) with
    | some n => some n
    | none => extractCount rest

/-- The while loop, probing attempt indices `i, i+1, ...` while fuel (the
remaining loop iterations, `maxRetries + 1 - i`) lasts.  `statuses k` is the
HTTP status of the k-th probe; `body` is the JSON body fetched after a
success. -/
def pollGo (statuses : Nat → Nat) (body : List Char) :
    Nat → Nat → PollResult
  | i, 0 => ⟨i, false, some 0⟩
  | i, fuel + 1 =>
    if statuses i = 200 then ⟨i + 1, true, extractCount body⟩
    else pollGo statuses body (i + 1) fuel

/-- The full health-check loop: `i` starts at 0 and the loop body runs while
`i ≤ maxRetries`, so at most `maxRetries + 1` probes. -/
def healthCheckRun (statuses : Nat → Nat) (body : List Char)
    (maxRetries : Nat) : PollResult :=
  pollGo statuses body 0 (maxRetries + 1)

/-- Model of the test `[ "$REGION_COUNT" -gt 0 ]`: true only when a numeric count greater than
0 was observed (an empty `REGION_COUNT` makes `test` fail, taking the else
branch). -/
def hasData (r : PollResult) : Bool :=
  match r.count with
  | some c => c > 0
  | none => false

/-- The seeding decision: seed exactly when the observed count is not
greater than 0. -/
def seedDecision (r : PollResult) : Bool :=
  !hasData r

/-! ## The command dispatcher (`main` in scripts/run.mjs) -/

/-- What a dispatcher invocation does, up to the first exit. -/
inductive DispatchResult where
  | noCommandError
  | setupGateError
  | ranHelp
  | ranCheck
  | setupUsageError
  | ranSetup (name : String)
  | ranClean (preserveDb : Bool)
  | ranCleanAll
  | unknownCommandError
deriving DecidableEq, Repr

/-- Model of `main` from scripts/run.mjs: `envExists` is `isSetupComplete()`, i.e.
whether a `.env` file exists in the current working directory. -/
def mainDispatch (args : List String) (envExists : Bool) : DispatchResult :=
  match args with
  | [] => DispatchResult.noCommandError
  | command :: rest =>
    if ¬ (["help", "check", "setup"].contains command) ∧ ¬ envExists then
      DispatchResult.setupGateError
    else
      match command with
      | "help" => DispatchResult.ranHelp
      | "check" => DispatchResult.ranCheck
      | "setup" =>
        match rest with
        | [] => DispatchResult.setupUsageError
        | name :: _ =>
          if name = "" then DispatchResult.setupUsageError
          else DispatchResult.ranSetup name
      | "clean" => DispatchResult.ranClean (rest.headD "" = "--preserve-db")
      | "clean:all" => DispatchResult.ranCleanAll
      | _ => DispatchResult.unknownCommandError


/-! ## Supporting lemmas -/

/-- If a scan finds no occurrence of the pattern, the replacing scan leaves
the input unchanged. -/
theorem replaceAllGAux_id_of_count_zero (pat rep : List Char) :
    ∀ (fuel : Nat) (s : List Char), s.length ≤ fuel →
      countOccurAux pat fuel s = 0 → replaceAllGAux pat rep fuel s = s := by
  intro fuel
  induction fuel with
  | zero =>
    intro s hs _
    have : s = [] := List.eq_nil_of_length_eq_zero (Nat.le_zero.mp hs)
    subst this
    rfl
  | succ n ih =>
    intro s hs hc
    cases s with
    | nil => rfl
    | cons c rest =>
      by_cases h : pat ≠ [] ∧ pat.isPrefixOf (c :: rest)
      · exfalso
        simp only [countOccurAux, if_pos h] at hc
        omega
      · simp only [countOccurAux, if_neg h] at hc
        simp only [replaceAllGAux, if_neg h]
        have hlen : rest.length ≤ n := by
          simp only [List.length_cons] at hs
          omega
        rw [ih rest hlen hc]

/-- Running the global replacement on a string with no occurrence of the
pattern is the identity and performs zero substitutions. -/
theorem replaceAllG_id_of_count_zero (pat rep s : List Char)
    (h : countOccur pat s = 0) : replaceAllG pat rep s = s :=
  replaceAllGAux_id_of_count_zero pat rep s.length s (Nat.le_refl _) h

/-! ## C1 -/

/-- C1: the claim says every name with an uppercase letter, a space, a
trailing period, or the empty string fails validation before any filesystem
mutation.  Uppercase letters, spaces and the empty string are indeed
rejected, but the regex in `firstSetup` ACCEPTS the name "a." — the class
`[a-z0-9-._~]*` at the end of the pattern admits a final period — so setup
proceeds to mutate the filesystem for that name, contradicting both the
claim and the rule list printed by `firstSetup` itself ("Cannot end with a
period"). -/
theorem c1_trailing_period_accepted :
    namePatternTest "a.".data = true ∧
    namePatternTest "A".data = false ∧
    namePatternTest "a b".data = false ∧
    namePatternTest "".data = false := by decide

/-! ## C2 -/

/-- C2 counterexample: "achangemenameb" is a valid project name (it matches
the naming grammar), yet renaming a file containing exactly the token
"changemename" with it reintroduces the token, so the second run performs
one substitution instead of zero — the renamer is not idempotent for every
valid name. -/
theorem c2_not_idempotent_counterexample :
    namePatternTest "achangemenameb".data = true ∧
    countOccur nameToken
      (replaceAllG nameToken "achangemenameb".data "changemename".data) = 1 := by
  decide

/-- C2 amended: for every valid project name and file content, IF the
placeholder token no longer occurs after the first run (the second run
therefore performs zero substitutions), the second run leaves the file
unchanged.  The unconditional claim fails: a replacement may reintroduce
the token, e.g. when the name itself contains it. -/
theorem c2_idempotent_when_token_gone (name content : List Char)
    (hvalid : namePatternTest name = true)
    (hclean : countOccur nameToken (replaceAllG nameToken name content) = 0) :
    replaceAllG nameToken name (replaceAllG nameToken name content) =
      replaceAllG nameToken name content :=
  replaceAllG_id_of_count_zero nameToken name _ hclean

/-- C2 witness: the amended theorem applied to the valid name "myproj" and a
concrete one-token content. -/
theorem c2_idempotent_witness :
    replaceAllG nameToken "myproj".data
        (replaceAllG nameToken "myproj".data "name: changemename".data) =
      replaceAllG nameToken "myproj".data "name: changemename".data :=
  c2_idempotent_when_token_gone "myproj".data "name: changemename".data
    (by decide) (by decide)

/-! ## C3 -/

/-- C3 counterexample: in `firstSetup` both traversals run inside one
`try`/`catch`, so a read failure on the first file aborts the pass: with a
failing first file followed by a readable file containing the token, the
second file is left untouched (the token survives) and is never renamed —
the traversal does not continue with the remaining files. -/
theorem c3_abort_counterexample :
    renamePassRun nameToken "p".data
        [none, some "changemename".data] =
      ([none, some "changemename".data], true) := by decide

/-- C3 amended: a per-file read/write failure is reported once and is not
fatal to the whole run (the surrounding `catch` swallows it and `firstSetup`
still finishes), but the renaming pass aborts at the first failing file:
files before it are renamed, the failing file and every file after it are
left untouched, and no further errors are collected. -/
theorem c3_first_error_aborts_pass (pat rep : List Char)
    (pre : List (List Char)) (suf : List (Option (List Char))) :
    renamePassRun pat rep (pre.map some ++ none :: suf) =
      (pre.map (fun c => some (replaceAllG pat rep c)) ++ none :: suf, true) := by
  induction pre with
  | nil => rfl
  | cons c pre ih =>
    simp only [List.map_cons, List.cons_append, renamePassRun, List.append_eq, ih]

/-! ## C4 and C5 -/

/-- Padding lemma for the component loop: when the SECOND list is the
shorter one, its missing components are read as 0, so appending explicit
zeros to it does not change the outcome. -/
theorem vcomp_pad_right (xs : List Nat) :
    ∀ ys : List Nat, ys.length ≤ xs.length →
      vcomp xs ys = vcomp xs (ys ++ List.replicate (xs.length - ys.length) 0) := by
  induction xs with
  | nil =>
    intro ys h
    have hnil : ys = [] := List.eq_nil_of_length_eq_zero (Nat.le_zero.mp h)
    subst hnil
    rfl
  | cons x xs ih =>
    intro ys h
    cases ys with
    | nil =>
      have h0 := ih [] (Nat.zero_le _)
      simp only [List.length_nil, Nat.sub_zero, List.nil_append] at h0 ⊢
      simp only [List.length_cons, List.replicate_succ]
      simp only [vcomp, List.headD_nil, List.headD_cons, List.tail_nil,
        List.tail_cons]
      rw [h0]
    | cons y ys =>
      have h' : ys.length ≤ xs.length := by
        simp only [List.length_cons] at h
        omega
      have h0 := ih ys h'
      simp only [List.length_cons, List.cons_append, Nat.succ_sub_succ]
      simp only [vcomp, List.headD_cons, List.tail_cons]
      rw [h0]

/-- Strict-prefix lemma for the component loop: appending a nonempty tail to
the first list makes the first strictly shorter, and after the pairwise-equal
prefix the final length check returns 2 (first less). -/
theorem vcomp_self_append (t : List Nat) (ht : t ≠ []) :
    ∀ xs : List Nat, vcomp xs (xs ++ t) = 2 := by
  intro xs
  induction xs with
  | nil =>
    cases t with
    | nil => exact absurd rfl ht
    | cons a t => simp [vcomp]
  | cons x xs ih =>
    simp only [List.cons_append, vcomp, List.headD_cons, List.tail_cons,
      lt_irrefl, if_false, gt_iff_lt]
    simpa using ih

/-- C4 counterexample: the claim says missing components are zero-padded
regardless of which argument has fewer, so that "9.5" vs "9.5.0" reports
equality.  The code instead ends its loop with a length check
(`len VER1 < len VER2` returns 2), so "9.5" vs "9.5.0" reports first-less,
not equality. -/
theorem c4_asymmetry_counterexample :
    version_compare "9.5".data "9.5.0".data = 2 := by decide

/-- C4 amended: the comparator compares component-by-component with missing
components treated as 0 only on the SECOND argument (zero-padding the second
list is sound whenever it is the shorter one); when the first argument has
fewer components than the second, the trailing length check reports
first-less instead, so "9.5.0" vs "9.5" is equal while "9.5" vs "9.5.0" is
first-less. -/
theorem c4_zero_pad_second_only :
    (∀ xs ys : List Nat, ys.length ≤ xs.length →
      vcomp xs ys = vcomp xs (ys ++ List.replicate (xs.length - ys.length) 0)) ∧
    version_compare "9.5.0".data "9.5".data = 0 ∧
    version_compare "9.5".data "9.5.0".data = 2 :=
  ⟨vcomp_pad_right, by decide, by decide⟩

/-- C4 witness: the padding clause of the amended theorem at a concrete
pair of component lists. -/
theorem c4_zero_pad_witness :
    vcomp [9, 5, 0] [9, 5] =
      vcomp [9, 5, 0]
        ([9, 5] ++ List.replicate ([9, 5, 0].length - [9, 5].length) 0) :=
  c4_zero_pad_second_only.1 [9, 5, 0] [9, 5] (by decide)

/-- C5: the comparator returns 1 (first greater) on ("v1.2.3", "1.2"),
0 (equal) on ("9.5.0", "9.5"), and whenever the first component list is a
strict prefix of the second it returns 2 (first less / not meeting the
requirement). -/
theorem c5_comparator_cases :
    version_compare "v1.2.3".data "1.2".data = 1 ∧
    version_compare "9.5.0".data "9.5".data = 0 ∧
    ∀ xs ys : List Nat, xs <+: ys → xs ≠ ys → vcomp xs ys = 2 := by
  refine ⟨by decide, by decide, ?_⟩
  rintro xs ys ⟨t, rfl⟩ hne
  have ht : t ≠ [] := by
    intro h
    subst h
    simp at hne
  exact vcomp_self_append t ht xs

/-- C5 witness: the strict-prefix clause at a concrete pair. -/
theorem c5_strict_prefix_witness : vcomp [1, 2] [1, 2, 5] = 2 :=
  c5_comparator_cases.2.2 [1, 2] [1, 2, 5] ⟨[5], rfl⟩ (by decide)

/-! ## C6 -/

/-- Files whose base name is on the ignore list are never visited by the
traversal, whatever the tree, prefix or fuel. -/
theorem visited_name_not_ignored (F D : List String) :
    ∀ (fuel : Nat) (entries : List FsEntry) (pre : String)
      (v : String × String × List Char),
      v ∈ visitedFiles F D fuel entries pre → F.contains v.2.1 = false := by
  intro fuel
  induction fuel with
  | zero =>
    intro entries pre v hv
    simp [visitedFiles] at hv
  | succ n ih =>
    intro entries pre v hv
    cases entries with
    | nil => simp [visitedFiles] at hv
    | cons e rest =>
      cases e with
      | file nm c =>
        simp only [visitedFiles, List.mem_append] at hv
        rcases hv with hv | hv
        · cases hF : F.contains nm with
          | true =>
            rw [if_pos hF] at hv
            simp at hv
          | false =>
            rw [if_neg (by rw [hF]; simp)] at hv
            have hveq : v = (relJoin pre nm, nm, c) := by simpa using hv
            subst hveq
            exact hF
        · exact ih rest pre v hv
      | dir nm es =>
        simp only [visitedFiles, List.mem_append] at hv
        rcases hv with hv | hv
        · cases hD : D.contains nm || D.contains (relJoin pre nm) with
          | true =>
            rw [if_pos hD] at hv
            simp at hv
          | false =>
            rw [if_neg (by rw [hD]; simp)] at hv
            exact ih es (relJoin pre nm) v hv
        · exact ih rest pre v hv

/-- C6: the claim says every ".env.example" file gets absent siblings ".env"
and ".env.production" created.  In the code the second traversal reuses the
same `filesToIgnore` list as the renaming pass, and that list contains
".env.example", so the traversal never hands a ".env.example" file to the
creation callback: the creation branch is dead code and no ".env" or
".env.production" file is ever created — contradicting the claim and the
function's own doc comment ("create the .env and .env.production files"). -/
theorem c6_env_creation_dead_code :
    (∀ (fuel : Nat) (entries : List FsEntry) (pre : String)
        (v : String × String × List Char),
        v ∈ visitedFiles setupFilesToIgnore setupDirsToIgnore fuel entries pre →
          v.2.1 ≠ ".env.example") ∧
    envPassCreations 10
      [FsEntry.file ".env.example" "X".data,
       FsEntry.dir "apps" [FsEntry.file ".env.example" "Y".data]] [] = [] := by
  constructor
  · intro fuel entries pre v hv heq
    have h := visited_name_not_ignored setupFilesToIgnore setupDirsToIgnore
      fuel entries pre v hv
    rw [heq] at h
    simp [setupFilesToIgnore] at h
  · decide

/-- C6 witness: the dead-code clause applied to a concrete visited file. -/
theorem c6_dead_code_witness :
    ("readme.md", "readme.md", "a".data).2.1 ≠ ".env.example" :=
  c6_env_creation_dead_code.1 10 [FsEntry.file "readme.md" "a".data] ""
    ("readme.md", "readme.md", "a".data) (by decide)

/-! ## C7 -/

/-- The template used to exercise two secret-placeholder occurrences in one
file. -/
def twoSecretTemplate : List Char := "changemesecret\nchangemesecret".data

/-- The generator scan on an exhausted input returns it unchanged. -/
theorem genAux_nil (pat : List Char) (gen : Nat → List Char) (fuel k : Nat) :
    replaceAllGenAux pat gen fuel k [] = ([], k) := by
  cases fuel <;> rfl

/-- The generator scan at a match consumes the pattern, emits `gen k` and
continues with the next generator index. -/
theorem genAux_step_match (pat : List Char) (gen : Nat → List Char)
    (fuel k : Nat) (rest : List Char) (hpat : pat ≠ []) :
    replaceAllGenAux pat gen (fuel + 1) k (pat ++ rest) =
      (gen k ++ (replaceAllGenAux pat gen fuel (k + 1) rest).1,
        (replaceAllGenAux pat gen fuel (k + 1) rest).2) := by
  cases pat with
  | nil => exact absurd rfl hpat
  | cons p ps =>
    rw [List.cons_append]
    simp only [replaceAllGenAux]
    rw [if_pos ⟨by simp, by
      rw [← List.cons_append, List.isPrefixOf_iff_prefix]
      exact List.prefix_append _ _⟩]
    rw [← List.cons_append, List.drop_left]

/-- The generator scan at a non-matching position keeps the character and
the generator index. -/
theorem genAux_step_nomatch (pat : List Char) (gen : Nat → List Char)
    (fuel k : Nat) (c : Char) (rest : List Char)
    (h : pat.isPrefixOf (c :: rest) = false) :
    replaceAllGenAux pat gen (fuel + 1) k (c :: rest) =
      (c :: (replaceAllGenAux pat gen fuel k rest).1,
        (replaceAllGenAux pat gen fuel k rest).2) := by
  simp only [replaceAllGenAux]
  rw [if_neg (fun hc => absurd hc.2 (by simp [h]))]

/-- On the two-occurrence template, the generator rule produces `gen 0` for
the first occurrence and `gen 1` for the second, calling the generator
twice. -/
theorem replaceAllGen_twoSecret (gen : Nat → List Char) :
    replaceAllGen secretToken gen twoSecretTemplate =
      (gen 0 ++ '\n' :: gen 1, 2) := by
  have e2 : twoSecretTemplate = secretToken ++ ('\n' :: (secretToken ++ [])) := by
    decide
  show replaceAllGenAux secretToken gen twoSecretTemplate.length 0
    twoSecretTemplate = _
  rw [show twoSecretTemplate.length = 28 + 1 from by decide]
  rw [e2]
  rw [genAux_step_match _ _ _ _ _ (by decide)]
  rw [show (28 : Nat) = 27 + 1 from rfl]
  rw [genAux_step_nomatch _ _ _ _ _ _ (by decide)]
  rw [show (27 : Nat) = 26 + 1 from rfl]
  rw [genAux_step_match _ _ _ _ _ (by decide)]
  rw [genAux_nil]
  simp

/-- A generated secret has two hex characters per byte. -/
theorem generateSecret_length (bs : List Nat) :
    (generateSecret bs).length = 2 * bs.length := by
  induction bs with
  | nil => rfl
  | cons b t ih =>
    simp only [generateSecret, List.flatMap_cons, List.length_append,
      List.length_cons] at ih ⊢
    simp only [byteToHex, List.length_cons, List.length_nil]
    omega

/-- Every character the encoder emits is a lowercase hexadecimal digit. -/
theorem hexDigit_mem (n : Nat) : hexDigit n ∈ hexDigits := by
  rcases Nat.lt_or_ge n 16 with h | h
  · interval_cases n <;> decide
  · rw [hexDigit, List.getD_eq_default]
    · decide
    · rw [show hexDigits.length = 16 from by decide]
      exact h

/-- Every character of a generated secret is a lowercase hexadecimal
digit. -/
theorem generateSecret_mem_hex (bs : List Nat) :
    ∀ c ∈ generateSecret bs, c ∈ hexDigits := by
  intro c hc
  simp only [generateSecret, List.mem_flatMap] at hc
  obtain ⟨b, _, hcb⟩ := hc
  simp only [byteToHex, List.mem_cons, List.not_mem_nil, or_false] at hcb
  rcases hcb with rfl | rfl
  · exact hexDigit_mem _
  · exact hexDigit_mem _

/-- Injectivity of the digit encoder on digit values. -/
theorem hexDigit_inj_fin :
    ∀ a b : Fin 16, hexDigit a.val = hexDigit b.val → a = b := by decide

/-- Injectivity of the digit encoder below 16. -/
theorem hexDigit_inj {a b : Nat} (ha : a < 16) (hb : b < 16)
    (h : hexDigit a = hexDigit b) : a = b :=
  congrArg Fin.val (hexDigit_inj_fin ⟨a, ha⟩ ⟨b, hb⟩ h)

/-- Hex encoding is injective on byte lists: distinct random draws yield
distinct secrets. -/
theorem generateSecret_inj :
    ∀ xs ys : List Nat, (∀ b ∈ xs, b < 256) → (∀ b ∈ ys, b < 256) →
      generateSecret xs = generateSecret ys → xs = ys := by
  intro xs
  induction xs with
  | nil =>
    intro ys _ _ h
    cases ys with
    | nil => rfl
    | cons y t => simp [generateSecret, byteToHex] at h
  | cons x xs ih =>
    intro ys hx hy h
    cases ys with
    | nil => simp [generateSecret, byteToHex] at h
    | cons y t =>
      simp only [generateSecret, List.flatMap_cons, byteToHex,
        List.cons_append, List.nil_append, List.cons.injEq] at h
      obtain ⟨h1, h2, h3⟩ := h
      have hx0 : x < 256 := hx x (by simp)
      have hy0 : y < 256 := hy y (by simp)
      have e1 : x / 16 = y / 16 := hexDigit_inj (by omega) (by omega) h1
      have e2 : x % 16 = y % 16 := hexDigit_inj (by omega) (by omega) h2
      have exy : x = y := by omega
      subst exy
      rw [ih t (fun b hb => hx b (by simp [hb])) (fun b hb => hy b (by simp [hb]))
        h3]

/-- C7: `generateSecret` encodes its 32 random bytes as a 64-character
lowercase-hex string, and `renameInFile` with a generator invokes the
generator once per match, so a template containing two secret placeholders
receives the hex encodings of two separate `crypto.randomBytes(32)` draws;
whenever those draws differ (as they do with overwhelming probability for a
cryptographically secure source), the two resulting values differ. -/
theorem c7_secret_per_occurrence (supply : Nat → List Nat)
    (hlen0 : (supply 0).length = 32) (hlen1 : (supply 1).length = 32)
    (hbytes : ∀ k, ∀ b ∈ supply k, b < 256)
    (hne : supply 0 ≠ supply 1) :
    (replaceAllGen secretToken (fun k => generateSecret (supply k))
        twoSecretTemplate).1 =
      generateSecret (supply 0) ++ '\n' :: generateSecret (supply 1) ∧
    (replaceAllGen secretToken (fun k => generateSecret (supply k))
        twoSecretTemplate).2 = 2 ∧
    (generateSecret (supply 0)).length = 64 ∧
    (generateSecret (supply 1)).length = 64 ∧
    (∀ c ∈ generateSecret (supply 0), c ∈ hexDigits) ∧
    (∀ c ∈ generateSecret (supply 1), c ∈ hexDigits) ∧
    generateSecret (supply 0) ≠ generateSecret (supply 1) := by
  have h := replaceAllGen_twoSecret (fun k => generateSecret (supply k))
  refine ⟨by rw [h], by rw [h], ?_, ?_, generateSecret_mem_hex _,
    generateSecret_mem_hex _, ?_⟩
  · rw [generateSecret_length, hlen0]
  · rw [generateSecret_length, hlen1]
  · intro hcontra
    exact hne (generateSecret_inj _ _ (hbytes 0) (hbytes 1) hcontra)

/-- A concrete supply of random draws for the C7 witness. -/
def witnessSupply (k : Nat) : List Nat :=
  if k = 0 then List.replicate 32 0 else List.replicate 32 17

/-- C7 witness: the theorem at a concrete pair of distinct 32-byte draws. -/
theorem c7_secret_witness :
    (replaceAllGen secretToken (fun k => generateSecret (witnessSupply k))
        twoSecretTemplate).1 =
      generateSecret (witnessSupply 0) ++ '\n' :: generateSecret (witnessSupply 1) ∧
    (replaceAllGen secretToken (fun k => generateSecret (witnessSupply k))
        twoSecretTemplate).2 = 2 ∧
    (generateSecret (witnessSupply 0)).length = 64 ∧
    (generateSecret (witnessSupply 1)).length = 64 ∧
    (∀ c ∈ generateSecret (witnessSupply 0), c ∈ hexDigits) ∧
    (∀ c ∈ generateSecret (witnessSupply 1), c ∈ hexDigits) ∧
    generateSecret (witnessSupply 0) ≠ generateSecret (witnessSupply 1) :=
  c7_secret_per_occurrence witnessSupply (by decide) (by decide)
    (by
      intro k b hb
      by_cases h : k = 0 <;> simp [witnessSupply, h] at hb <;> omega)
    (by decide)

/-! ## C8 and C9 -/

/-- Unfolding of a failed probe: the loop retries with the next attempt
index. -/
theorem pollGo_step_ne (st : Nat → Nat) (b : List Char) (i fuel : Nat)
    (h : st i ≠ 200) :
    pollGo st b i (fuel + 1) = pollGo st b (i + 1) fuel := by
  simp [pollGo, h]

/-- Unfolding of a successful probe: the loop stops and extracts the count
from the follow-up body. -/
theorem pollGo_step_eq (st : Nat → Nat) (b : List Char) (i fuel : Nat)
    (h : st i = 200) :
    pollGo st b i (fuel + 1) = ⟨i + 1, true, extractCount b⟩ := by
  simp [pollGo, h]

/-- The loop performs at most `fuel` probes beyond the `i` already done. -/
theorem pollGo_attempts_le (st : Nat → Nat) (b : List Char) :
    ∀ (fuel i : Nat), (pollGo st b i fuel).attempts ≤ i + fuel := by
  intro fuel
  induction fuel with
  | zero => intro i; simp [pollGo]
  | succ n ih =>
    intro i
    by_cases h : st i = 200
    · rw [pollGo_step_eq st b i n h]
      show i + 1 ≤ i + (n + 1)
      omega
    · rw [pollGo_step_ne st b i n h]
      have := ih (i + 1)
      omega

/-- If the first success is the j-th probe within the budget, the loop stops
right there with `j + 1` attempts performed from attempt index `i = 0`
onward. -/
theorem pollGo_first_success (st : Nat → Nat) (b : List Char) :
    ∀ (fuel i j : Nat), j < fuel → (∀ k, k < j → st (i + k) ≠ 200) →
      st (i + j) = 200 →
      pollGo st b i fuel = ⟨i + j + 1, true, extractCount b⟩ := by
  intro fuel
  induction fuel with
  | zero =>
    intro i j hj
    omega
  | succ n ih =>
    intro i j hj hfail hsucc
    cases j with
    | zero =>
      rw [pollGo_step_eq st b i n (by simpa using hsucc)]
    | succ j =>
      have h0 : st i ≠ 200 := by
        have := hfail 0 (Nat.succ_pos j)
        simpa using this
      rw [pollGo_step_ne st b i n h0]
      have hrec := ih (i + 1) j (by omega)
        (fun k hk => by
          have := hfail (k + 1) (by omega)
          have e : i + (k + 1) = i + 1 + k := by omega
          rwa [e] at this)
        (by
          have e : i + (j + 1) = i + 1 + j := by omega
          rwa [e] at hsucc)
      rw [hrec]
      have e : i + 1 + j + 1 = i + (j + 1) + 1 := by omega
      rw [e]

/-- If every probe in the budget fails, the loop exhausts its fuel with
`REGION_COUNT` still at its initial value 0. -/
theorem pollGo_all_fail (st : Nat → Nat) (b : List Char)
    (hfail : ∀ k, st k ≠ 200) :
    ∀ (fuel i : Nat), pollGo st b i fuel = ⟨i + fuel, false, some 0⟩ := by
  intro fuel
  induction fuel with
  | zero => intro i; simp [pollGo]
  | succ n ih =>
    intro i
    rw [pollGo_step_ne st b i n (hfail i), ih (i + 1)]
    have e : i + 1 + n = i + (n + 1) := by omega
    rw [e]

/-- C8: the readiness loop performs at most `maxRetries + 1` probes, and
with `maxRetries = 3` against an endpoint failing on the first three
attempts and returning 200 on the fourth, it succeeds on exactly the fourth
attempt and takes `REGION_COUNT` from the follow-up GET's body. -/
theorem c8_fourth_attempt_success (statuses : Nat → Nat) (body : List Char)
    (h0 : statuses 0 ≠ 200) (h1 : statuses 1 ≠ 200) (h2 : statuses 2 ≠ 200)
    (h3 : statuses 3 = 200) :
    (∀ (st : Nat → Nat) (b : List Char) (m : Nat),
      (healthCheckRun st b m).attempts ≤ m + 1) ∧
    healthCheckRun statuses body 3 = ⟨4, true, extractCount body⟩ := by
  constructor
  · intro st b m
    have := pollGo_attempts_le st b (m + 1) 0
    simpa [healthCheckRun] using this
  · have h := pollGo_first_success statuses body 4 0 3 (by omega)
      (fun k hk => by
        interval_cases k
        · simpa using h0
        · simpa using h1
        · simpa using h2)
      (by simpa using h3)
    simpa [healthCheckRun] using h

/-- C8 witness: the theorem at a concrete status sequence failing three
times before succeeding. -/
theorem c8_witness :
    (∀ (st : Nat → Nat) (b : List Char) (m : Nat),
      (healthCheckRun st b m).attempts ≤ m + 1) ∧
    healthCheckRun (fun k => if k < 3 then 503 else 200)
        "\x7b\"count\": 2\x7d".data 3 =
      ⟨4, true, extractCount "\x7b\"count\": 2\x7d".data⟩ :=
  c8_fourth_attempt_success (fun k => if k < 3 then 503 else 200)
    "\x7b\"count\": 2\x7d".data (by decide) (by decide) (by decide) (by decide)

/-- C9: when every probe in the budget fails, the loop ends unsuccessfully
with the count at its default 0 and the decision is to seed; conversely any
run whose extracted count is positive skips seeding. -/
theorem c9_seed_on_exhaustion (statuses : Nat → Nat) (body : List Char)
    (maxRetries : Nat) (hfail : ∀ k, statuses k ≠ 200) :
    (healthCheckRun statuses body maxRetries).success = false ∧
    (healthCheckRun statuses body maxRetries).count = some 0 ∧
    seedDecision (healthCheckRun statuses body maxRetries) = true ∧
    (∀ (r : PollResult) (c : Nat), r.count = some c → c > 0 →
      seedDecision r = false) := by
  have h := pollGo_all_fail statuses body hfail (maxRetries + 1) 0
  refine ⟨?_, ?_, ?_, ?_⟩
  · rw [healthCheckRun, h]
  · rw [healthCheckRun, h]
  · rw [healthCheckRun, h]
    simp [seedDecision, hasData]
  · intro r c hc hpos
    simp [seedDecision, hasData, hc, hpos]

/-- C9 witness: the theorem against an endpoint that always returns 503. -/
theorem c9_witness :
    (healthCheckRun (fun _ => 503) [] 3).success = false ∧
    (healthCheckRun (fun _ => 503) [] 3).count = some 0 ∧
    seedDecision (healthCheckRun (fun _ => 503) [] 3) = true ∧
    (∀ (r : PollResult) (c : Nat), r.count = some c → c > 0 →
      seedDecision r = false) :=
  c9_seed_on_exhaustion (fun _ => 503) [] 3
    (fun k => by show (503 : Nat) ≠ 200; decide)

/-! ## C10 -/

/-- C10: every dispatcher invocation whose subcommand is outside
help/check/setup — in particular `clean` and `clean:all` — exits with the
setup-completion error, before any of the subcommand's actions, whenever no
`.env` file exists in the current working directory. -/
theorem c10_setup_gate (cmd : String) (rest : List String)
    (h : ["help", "check", "setup"].contains cmd = false) :
    mainDispatch (cmd :: rest) false = DispatchResult.setupGateError ∧
    mainDispatch ["clean"] false = DispatchResult.setupGateError ∧
    mainDispatch ["clean:all"] false = DispatchResult.setupGateError := by
  refine ⟨?_, by decide, by decide⟩
  simp only [mainDispatch]
  split
  · rfl
  next hcontra =>
    exact absurd ⟨by simpa using h, by simp⟩ hcontra

/-- C10 witness: the gate fires for `clean` with no arguments. -/
theorem c10_witness :
    mainDispatch ["clean"] false = DispatchResult.setupGateError ∧
    mainDispatch ["clean"] false = DispatchResult.setupGateError ∧
    mainDispatch ["clean:all"] false = DispatchResult.setupGateError :=
  c10_setup_gate "clean" [] (by decide)

end Starter
